import Mathlib

/-!
Shallow embedding of `prepare_structure.py` (vggt-zeroshop).

The script composites per-frame color images with per-frame masks into RGBA
images, distributes index ranges of files between folders, and post-processes
composites by zeroing color channels where alpha < 10.

Modelling conventions:
* pixel channel values are `Nat` (the script works on `uint8` arrays; no
  arithmetic in the script can overflow a channel: it only copies values or
  writes 0, so `Nat` is faithful);
* an image is a list of rows (`List (List _)`), row-major like numpy;
* a folder is an association list of filename / file-content pairs;
  `none : Option Folder` is a missing directory;
* filenames are `String`, manipulated through their `List Char` data so that
  everything reduces in the kernel.
-/

/-- A 3-channel (color) pixel, in the channel order produced by loading: the
script converts BGR to RGB right after `cv2.imread`, so channel 0/1/2 is R/G/B. -/
structure Px3 where
  c0 : Nat
  c1 : Nat
  c2 : Nat
deriving DecidableEq, Repr

/-- A 4-channel pixel as stored in a composite: channels 0-2 are the color
channels, channel 3 is the alpha (mask) value. -/
structure Px4 where
  c0 : Nat
  c1 : Nat
  c2 : Nat
  c3 : Nat
deriving DecidableEq, Repr

/-- Color image: rows of 3-channel pixels. -/
abbrev Img3 := List (List Px3)

/-- Grayscale image (a mask): rows of single intensities. -/
abbrev ImgG := List (List Nat)

/-- 4-channel composite image: rows of 4-channel pixels. -/
abbrev Img4 := List (List Px4)

/-- List indexing with a default, i.e. numpy array access (indices used by the
script are always in bounds; the default only pads the model's totality). -/
def nthD {α : Type} : List α → Nat → α → α
  | [], _, d => d
  | a :: _, 0, _ => a
  | _ :: l, n + 1, d => nthD l n d

/-- Pixel access in a grayscale image. -/
def getG (img : ImgG) (r c : Nat) : Nat := nthD (nthD img r []) c 0

/-- Pixel access in a color image. -/
def getPx3 (img : Img3) (r c : Nat) : Px3 := nthD (nthD img r []) c ⟨0, 0, 0⟩

/-- Pixel access in a composite image. -/
def getPx4 (img : Img4) (r c : Nat) : Px4 := nthD (nthD img r []) c ⟨0, 0, 0, 0⟩

/-- An image is rectangular with `h` rows of `w` pixels each (numpy arrays of
shape `(h, w, _)` are always of this form). -/
def rect {α : Type} (img : List (List α)) (h w : Nat) : Prop :=
  img.length = h ∧ ∀ row ∈ img, row.length = w

instance {α : Type} (img : List (List α)) (h w : Nat) : Decidable (rect img h w) := by
  unfold rect; infer_instance

/-! ### Background suppression (lines 211-219 of `prepare_structure.py`)

`background_mask = alpha_channel < 10`, then channels 0, 1 and 2 are set to 0
at every masked position and the alpha channel is left alone. -/

/-- Per-pixel effect of the background-suppression pass: a pixel is in the
background mask iff its channel-3 value is < 10; such a pixel gets its three
color channels set to 0 and keeps its alpha. -/
def suppressPixel (p : Px4) : Px4 :=
  if p.c3 < 10 then ⟨0, 0, 0, p.c3⟩ else p

/-- Whole-image effect of one suppression pass over a 4-channel image. -/
def suppressImage (img : Img4) : Img4 :=
  img.map (fun row => row.map suppressPixel)

/-! ### Filenames

Filenames are manipulated through their character data so every operation
reduces in the kernel. `lowerChar` models Python `str.lower` on the ASCII
range (filenames in this pipeline are ASCII). -/

/-- ASCII lower-casing of one character, as Python `str.lower` acts on the
filenames this script sees. -/
def lowerChar (c : Char) : Char :=
  if 'A' ≤ c ∧ c ≤ 'Z' then Char.ofNat (c.toNat + 32) else c

/-- Python `f.lower().endswith(&#39;.png&#39;)` (line 38 / line 192). -/
def isPng (n : String) : Bool :=
  List.isSuffixOf ".png".data (n.data.map lowerChar)

/-- Stem of a filename as `os.path.splitext(f)[0]` computes it for the names
the script enumerates (names ending in `.png` case-insensitively): everything
before the final 4-character extension. -/
def stemOf (n : String) : String :=
  String.mk (n.data.take (n.data.length - 4))

/-- Mask filename looked up for a color file (line 52): `{base}_000000.png`. -/
def maskNameOf (n : String) : String :=
  String.mk ((stemOf n).data ++ "_000000.png".data)

/-- Output filename for a composite (line 80): `{base}.png`. -/
def outNameOf (n : String) : String :=
  String.mk ((stemOf n).data ++ ".png".data)

/-- Strict lexicographic comparison of character lists by code point, i.e. the
order Python string comparison (and hence `list.sort`) uses on these names. -/
def lexLt : List Char → List Char → Bool
  | [], [] => false
  | [], _ :: _ => true
  | _ :: _, [] => false
  | a :: as, b :: bs =>
    if a.toNat < b.toNat then true
    else if b.toNat < a.toNat then false
    else lexLt as bs

/-- Stable insertion of a name into an already sorted list. -/
def insertName (x : String) : List String → List String
  | [] => [x]
  | y :: ys => if lexLt y.data x.data then y :: insertName x ys else x :: y :: ys

/-- Ascending stable sort of filenames, modelling `files.sort()` (line 39 /
line 193). -/
def sortNames : List String → List String
  | [] => []
  | x :: xs => insertName x (sortNames xs)

/-- Zero-padding to 6 digits: Python `f"{i:06d}"` for a non-negative index. -/
def pad6 (n : Nat) : String :=
  String.mk (List.replicate (6 - (toString n).length) '0' ++ (toString n).data)

/-- Filename `{i:06d}.png` used by the plain copy and as rename target. -/
def imgName (i : Nat) : String :=
  String.mk ((pad6 i).data ++ ".png".data)

/-- Filename `{i:06d}_000000.png` used as the mask-copy source pattern. -/
def maskFileName (i : Nat) : String :=
  String.mk ((pad6 i).data ++ "_000000.png".data)

/-! ### Files and folders -/

/-- Content of one image file on disk, by what `cv2.imread` would see: a
3-channel color image, a single-channel grayscale image, or a 4-channel
image. -/
inductive File where
  | color (img : Img3)
  | gray (img : ImgG)
  | rgba (img : Img4)
deriving DecidableEq, Repr

/-- A directory: an association list of filename / content pairs.  A missing
directory is `none : Option Folder`. -/
abbrev Folder := List (String × File)

/-- `os.listdir`: the names present in a folder. -/
def listing (fs : Folder) : List String := fs.map Prod.fst

/-- File lookup by name; `isSome` of this is `os.path.exists` for a file. -/
def lookupFile : Folder → String → Option File
  | [], _ => none
  | (m, f) :: fs, n => if m.data == n.data then some f else lookupFile fs n

/-- Writing a file: overwrite the entry with this name if present, else add
the file to the folder. -/
def writeFile : Folder → String → File → Folder
  | [], n, f => [(n, f)]
  | (m, g) :: fs, n, f =>
    if m.data == n.data then (m, f) :: fs else (m, g) :: writeFile fs n f

/-! ### Image loading

`cv2.imread(path)` with the default flag yields a 3-channel image whatever is
on disk (grayscale gets replicated, a 4th channel gets dropped); the script
then converts BGR to RGB, so `loadColor` returns the logical color image.
`cv2.imread(path, cv2.IMREAD_GRAYSCALE)` yields a single channel; for color
input the integer-rounded Rec.601 luma models OpenCV's conversion. -/

/-- Rec.601 luma of a color pixel with integer rounding. -/
def luma (p : Px3) : Nat :=
  (299 * p.c0 + 587 * p.c1 + 114 * p.c2 + 500) / 1000

/-- Load a file as a 3-channel color image (`cv2.imread` default flag followed
by the script's BGR to RGB conversion, lines 62-63). -/
def loadColor : File → Img3
  | File.color img => img
  | File.gray img => img.map (fun row => row.map (fun v => ⟨v, v, v⟩))
  | File.rgba img => img.map (fun row => row.map (fun p => ⟨p.c0, p.c1, p.c2⟩))

/-- Load a file as a grayscale image (`cv2.IMREAD_GRAYSCALE`, line 66). -/
def loadGray : File → ImgG
  | File.gray img => img
  | File.color img => img.map (fun row => row.map luma)
  | File.rgba img => img.map (fun row => row.map (fun p => luma ⟨p.c0, p.c1, p.c2⟩))

/-! ### The per-image merge (lines 68-81) -/

/-- Width of an image: length of its first row (numpy `shape[1]`; every row of
a numpy array has this length). -/
def imgWidth {α : Type} (img : List (List α)) : Nat := (nthD img 0 []).length

/-- Spatial shape `rgb_image.shape[:2]` of a color image. -/
def shape3 (img : Img3) : Nat × Nat := (img.length, imgWidth img)

/-- Spatial shape `mask_image.shape` of a grayscale image. -/
def shapeG (img : ImgG) : Nat × Nat := (img.length, imgWidth img)

/-- Resampling of a mask to `h` rows and `w` columns, modelling
`cv2.resize(mask_image, (w, h))` at the level the spec fixes: the output has
exactly the requested shape and samples the input (the exact interpolation
filter is not load-bearing; nearest-neighbor scaling is used here). -/
def resizeGray (m : ImgG) (h w : Nat) : ImgG :=
  (List.range h).map fun r =>
    (List.range w).map fun c =>
      nthD (nthD m (r * m.length / h) []) (c * imgWidth m / w) 0

/-- Allocation and channel assignment of lines 74-76:
`rgba = np.zeros((h, w, 4)); rgba[:, :, :3] = rgb_image; rgba[:, :, 3] = m`. -/
def assembleRGBA (rgbImg : Img3) (m : ImgG) : Img4 :=
  (List.range rgbImg.length).map fun r =>
    (List.range (imgWidth rgbImg)).map fun c =>
      ⟨(getPx3 rgbImg r c).c0, (getPx3 rgbImg r c).c1, (getPx3 rgbImg r c).c2,
        getG m r c⟩

/-- The whole per-pair merge, lines 68-76: resize the mask first when the
spatial shapes differ, then assemble the 4-channel composite. -/
def combinePair (rgbImg : Img3) (maskImg : ImgG) : Img4 :=
  if shape3 rgbImg = shapeG maskImg then assembleRGBA rgbImg maskImg
  else assembleRGBA rgbImg (resizeGray maskImg rgbImg.length (imgWidth rgbImg))

/-! ### The compositor `combine_rgb_mask` (lines 15-91) -/

/-- Result of a `combine_rgb_mask` call: the returned boolean, the state of
the output folder afterwards (`none` when it was never created), and the
processed count. -/
structure CombineResult where
  success : Bool
  outFolder : Option Folder
  count : Nat
deriving DecidableEq, Repr

/-- Loop body of the compositor (lines 47-88): a color file with no
corresponding mask is skipped; otherwise the pair is loaded, merged, the
composite is written as `{base}.png` and the processed count incremented.
Every enumerated file is assumed to decode (the model has no I/O faults). -/
def combineStep (rgbF maskF : Folder) (acc : Folder × Nat) (name : String) :
    Folder × Nat :=
  match lookupFile maskF (maskNameOf name) with
  | none => acc
  | some mf =>
    let rgbImg := loadColor ((lookupFile rgbF name).getD (File.color []))
    (writeFile acc.1 (outNameOf name)
        (File.rgba (combinePair rgbImg (loadGray mf))),
      acc.2 + 1)

/-- The compositor, lines 15-91.  Missing input folders fail before the output
folder is created; `os.makedirs(..., exist_ok=True)` then materialises the
output folder; the sorted `.png` listing of the color folder drives the loop
(`combineStep`); the return value is `processed_count > 0`. -/
def combine_rgb_mask (rgbDir maskDir outDir : Option Folder) : CombineResult :=
  match rgbDir with
  | none => ⟨false, outDir, 0⟩
  | some rgbF =>
    match maskDir with
    | none => ⟨false, outDir, 0⟩
    | some maskF =>
      let out0 : Folder := outDir.getD []
      let rgb_files := sortNames ((listing rgbF).filter isPng)
      if rgb_files = [] then ⟨false, some out0, 0⟩
      else
        let res := rgb_files.foldl (combineStep rgbF maskF) (out0, 0)
        ⟨decide (0 < res.2), some res.1, res.2⟩

/-! ### The distributor (lines 94-174) -/

/-- Result of one copy call: destination folder state, the frame indices that
were actually copied in order, and `copied_count`. -/
structure CopyResult where
  destFolder : Folder
  copied : List Nat
  count : Nat
deriving DecidableEq, Repr

/-- Shared shape of the three copy functions: `os.makedirs` the destination,
then for each `i` in `range(start, end)` copy `srcName i` to `destName i`
when the source file exists, else warn and continue. -/
def copyStep (srcName destName : Nat → String) (src : Folder)
    (acc : CopyResult) (i : Nat) : CopyResult :=
  match lookupFile src (srcName i) with
  | some f => ⟨writeFile acc.destFolder (destName i) f, acc.copied ++ [i],
      acc.count + 1⟩
  | none => acc

/-- Iteration of `copyStep` over `range(start, end)` starting from the
created (or pre-existing) destination folder. -/
def copyRange (srcName destName : Nat → String) (src : Folder)
    (dest0 : Option Folder) (r : Nat × Nat) : CopyResult :=
  (List.range' r.1 (r.2 - r.1)).foldl (copyStep srcName destName src)
    ⟨dest0.getD [], [], 0⟩

/-- Lines 94-119: plain copy, `{i:06d}.png` to `{i:06d}.png`. -/
def copy_images_to_directory (src : Folder) (dest0 : Option Folder)
    (r : Nat × Nat) : CopyResult :=
  copyRange imgName imgName src dest0 r

/-- Lines 122-147: copy and rename, `{i:06d}_000000.png` to `{i:06d}.png`. -/
def copy_and_rename_mask_images (src : Folder) (dest0 : Option Folder)
    (r : Nat × Nat) : CopyResult :=
  copyRange maskFileName imgName src dest0 r

/-- Lines 150-174: suffix-preserving copy, `{i:06d}_000000.png` to
`{i:06d}_000000.png`. -/
def copy_mask_images_to_directory (src : Folder) (dest0 : Option Folder)
    (r : Nat × Nat) : CopyResult :=
  copyRange maskFileName maskFileName src dest0 r

/-! ### The background suppressor `postprocess_segmented_images`
(lines 177-232) -/

/-- Result of a `postprocess_segmented_images` call: the returned boolean, the
folder state afterwards, and `processed_count`. -/
structure PostResult where
  success : Bool
  folder : Option Folder
  count : Nat
deriving DecidableEq, Repr

/-- Whether the file stored under name `n` is a 4-channel image — the
condition under which the per-file body of the suppressor runs to completion
(a 3-channel file fails the `shape[2] != 4` test, line 207, and a grayscale
file raises on `shape[2]` and is skipped by the handler, lines 227-229). -/
def isRgbaAt (fs : Folder) (n : String) : Bool :=
  match lookupFile fs n with
  | some (File.rgba _) => true
  | _ => false

/-- Loop body of the suppressor (lines 201-229): rewrite a 4-channel file in
place with its suppressed pixels and count it; skip every other file. -/
def postStep (acc : Folder × Nat) (name : String) : Folder × Nat :=
  match lookupFile acc.1 name with
  | some (File.rgba img) =>
    (writeFile acc.1 name (File.rgba (suppressImage img)), acc.2 + 1)
  | _ => acc

/-- The suppressor, lines 177-232: fail when the folder is missing or its
`.png` listing is empty; otherwise run `postStep` over the sorted listing and
return `processed_count > 0`. -/
def postprocess_segmented_images (dir : Option Folder) : PostResult :=
  match dir with
  | none => ⟨false, none, 0⟩
  | some fs =>
    let rgba_files := sortNames ((listing fs).filter isPng)
    if rgba_files = [] then ⟨false, some fs, 0⟩
    else
      let res := rgba_files.foldl postStep (fs, 0)
      ⟨decide (0 < res.2), some res.1, res.2⟩

/-! ### The orchestrator `process_object_directory` (lines 235-294) -/

/-- The filesystem state a run starts from, restricted to the folders the
orchestrator touches: whether `train_pbr/000000` exists, the `rgb` and `mask`
folders, and the prior states of the five produced folders. -/
structure ObjState where
  base_exists : Bool
  rgbF : Option Folder
  maskF : Option Folder
  rgb_mask0 : Option Folder
  seg_masks0 : Option Folder
  surf_masks0 : Option Folder
  surf_images0 : Option Folder
  seg_images0 : Option Folder
deriving DecidableEq, Repr

/-- What a run performed: the overall boolean, the compositor result when the
compositor ran, each distribution step as `(start, end, result)` when it ran,
and the suppressor result when it ran.  `none` means the step never
executed. -/
structure RunResult where
  success : Bool
  combineRes : Option CombineResult
  segMasks : Option (Nat × Nat × CopyResult)
  surfMasks : Option (Nat × Nat × CopyResult)
  surfImages : Option (Nat × Nat × CopyResult)
  segImages : Option (Nat × Nat × CopyResult)
  postRes : Option PostResult
deriving DecidableEq, Repr

/-- The orchestrator, lines 235-294: abort when `train_pbr/000000` is missing
(line 250) or when the compositor reports failure (line 261); otherwise run
the two mask renames with ranges `[0,30)` and `[0,20)`, the two image copies
with ranges `[0,20)` and `[0,30)`, and the suppressor over the segmented
images folder, in source order. -/
def process_object_directory (st : ObjState) : RunResult :=
  if st.base_exists = false then
    ⟨false, none, none, none, none, none, none⟩
  else
    let c := combine_rgb_mask st.rgbF st.maskF st.rgb_mask0
    if c.success = false then
      ⟨false, some c, none, none, none, none, none⟩
    else
      let maskSrc : Folder := st.maskF.getD []
      let rgbMaskSrc : Folder := c.outFolder.getD []
      let sm := copy_and_rename_mask_images maskSrc st.seg_masks0 (0, 30)
      let um := copy_and_rename_mask_images maskSrc st.surf_masks0 (0, 20)
      let ui := copy_images_to_directory rgbMaskSrc st.surf_images0 (0, 20)
      let si := copy_images_to_directory rgbMaskSrc st.seg_images0 (0, 30)
      let pp := postprocess_segmented_images (some si.destFolder)
      ⟨true, some c, some (0, 30, sm), some (0, 20, um), some (0, 20, ui),
        some (0, 30, si), some pp⟩

/-! ## Helper lemmas -/

theorem nthD_map {α β : Type} (f : α → β) :
    ∀ (l : List α) (n : Nat) (d : α) (d' : β), f d = d' →
      nthD (l.map f) n d' = f (nthD l n d)
  | [], _, _, _, h => h.symm
  | _ :: _, 0, _, _, _ => rfl
  | _ :: l, n + 1, d, d', h => nthD_map f l n d d' h

theorem suppressPixel_default : suppressPixel ⟨0, 0, 0, 0⟩ = ⟨0, 0, 0, 0⟩ := rfl

theorem getPx4_suppressImage (img : Img4) (r c : Nat) :
    getPx4 (suppressImage img) r c = suppressPixel (getPx4 img r c) := by
  unfold getPx4 suppressImage
  rw [nthD_map (fun row => row.map suppressPixel) img r [] [] rfl,
    nthD_map suppressPixel _ c ⟨0, 0, 0, 0⟩ ⟨0, 0, 0, 0⟩ rfl]

theorem suppressPixel_c3 (p : Px4) : (suppressPixel p).c3 = p.c3 := by
  by_cases h : p.c3 < 10 <;> simp [suppressPixel, h]

theorem suppressPixel_idem (p : Px4) :
    suppressPixel (suppressPixel p) = suppressPixel p := by
  by_cases h : p.c3 < 10 <;> simp [suppressPixel, h]


/-! ## Claims about the background suppression pixel transform -/

/-- C2. In the suppression pass of `postprocess_segmented_images`, a pixel's
three color channels are zeroed exactly when its alpha is strictly below 10
(the alpha itself being kept), the pixel is untouched otherwise; at the
boundary, alpha 9 is suppressed and alpha 10 is not. -/
theorem C2_alpha_threshold (img : Img4) (r c : Nat) :
    ((getPx4 img r c).c3 < 10 →
      getPx4 (suppressImage img) r c = ⟨0, 0, 0, (getPx4 img r c).c3⟩) ∧
    (10 ≤ (getPx4 img r c).c3 →
      getPx4 (suppressImage img) r c = getPx4 img r c) ∧
    (∀ x y z : Nat, suppressPixel ⟨x, y, z, 9⟩ = ⟨0, 0, 0, 9⟩) ∧
    (∀ x y z : Nat, suppressPixel ⟨x, y, z, 10⟩ = ⟨x, y, z, 10⟩) := by
  refine ⟨fun h => ?_, fun h => ?_, fun x y z => rfl, fun x y z => ?_⟩
  · rw [getPx4_suppressImage]; simp [suppressPixel, h]
  · rw [getPx4_suppressImage]; simp [suppressPixel, Nat.not_lt.mpr h]
  · simp [suppressPixel]

theorem C2_alpha_threshold_witness :
    getPx4 (suppressImage [[⟨5, 6, 7, 9⟩]]) 0 0 = ⟨0, 0, 0, 9⟩ ∧
    getPx4 (suppressImage [[⟨5, 6, 7, 10⟩]]) 0 0 = ⟨5, 6, 7, 10⟩ := by
  constructor
  · exact (C2_alpha_threshold [[⟨5, 6, 7, 9⟩]] 0 0).1 (by decide)
  · exact (C2_alpha_threshold [[⟨5, 6, 7, 10⟩]] 0 0).2.1 (by decide)

/-- C4. The suppression transform of `postprocess_segmented_images` is
idempotent on every image: the first pass keeps the alpha channel, so a second
pass recomputes the same background mask and writes the same zeros. -/
theorem C4_suppress_idempotent (img : Img4) :
    suppressImage (suppressImage img) = suppressImage img := by
  simp [suppressImage, List.map_map, Function.comp_def, suppressPixel_idem]

/-- C5. The suppression pass keeps the alpha channel at every position and
keeps the image's shape; a pixel that is not a background pixel (alpha not
below 10) is completely unchanged. -/
theorem C5_alpha_never_modified (img : Img4) (r c : Nat) :
    (getPx4 (suppressImage img) r c).c3 = (getPx4 img r c).c3 ∧
    (suppressImage img).length = img.length ∧
    (nthD (suppressImage img) r []).length = (nthD img r []).length ∧
    (¬ (getPx4 img r c).c3 < 10 →
      getPx4 (suppressImage img) r c = getPx4 img r c) := by
  refine ⟨?_, ?_, ?_, fun h => ?_⟩
  · rw [getPx4_suppressImage]; exact suppressPixel_c3 _
  · simp [suppressImage]
  · rw [show suppressImage img = img.map (fun row => row.map suppressPixel) from rfl,
      nthD_map (fun row => row.map suppressPixel) img r [] [] rfl]
    exact List.length_map _ _
  · rw [getPx4_suppressImage]; simp [suppressPixel, h]

theorem C5_alpha_never_modified_witness :
    getPx4 (suppressImage [[⟨1, 2, 3, 200⟩]]) 0 0 = ⟨1, 2, 3, 200⟩ :=
  (C5_alpha_never_modified [[⟨1, 2, 3, 200⟩]] 0 0).2.2.2 (by decide)

/-! ## The merge: helper lemmas -/

theorem nthD_append {α : Type} :
    ∀ (l l' : List α) (n : Nat) (d : α), n < l.length →
      nthD (l ++ l') n d = nthD l n d
  | [], _, _, _, h => absurd h (by simp)
  | _ :: _, _, 0, _, _ => rfl
  | _ :: l, l', n + 1, d, h =>
    nthD_append l l' n d (Nat.lt_of_succ_lt_succ h)

theorem nthD_append_right {α : Type} :
    ∀ (l l' : List α) (d : α), nthD (l ++ l') l.length d = nthD l' 0 d
  | [], _, _ => rfl
  | _ :: l, l', d => nthD_append_right l l' d

theorem nthD_range_map {β : Type} (f : Nat → β) :
    ∀ (n r : Nat) (d : β), r < n → nthD ((List.range n).map f) r d = f r := by
  intro n
  induction n with
  | zero => intro r d h; omega
  | succ n ih =>
    intro r d h
    rw [List.range_succ, List.map_append]
    by_cases hr : r < n
    · rw [nthD_append _ _ _ _ (by simpa using hr)]
      exact ih r d hr
    · have hrn : r = n := by omega
      subst hrn
      have hlen : ((List.range r).map f).length = r := by simp
      calc nthD ((List.range r).map f ++ [f r]) r d
          = nthD ((List.range r).map f ++ [f r]) ((List.range r).map f).length d := by
            rw [hlen]
        _ = nthD [f r] 0 d := nthD_append_right _ _ _
        _ = f r := rfl

theorem imgWidth_of_rect {α : Type} {img : List (List α)} {h w : Nat}
    (hr : rect img h w) (hpos : 0 < h) : imgWidth img = w := by
  cases img with
  | nil => rw [← hr.1] at hpos; simp at hpos
  | cons row rest => exact hr.2 row (List.mem_cons_self row rest)

theorem shape3_of_rect {img : Img3} {h w : Nat}
    (hr : rect img h w) (hpos : 0 < h) : shape3 img = (h, w) := by
  unfold shape3
  rw [hr.1, imgWidth_of_rect hr hpos]

theorem shapeG_of_rect {img : ImgG} {h w : Nat}
    (hr : rect img h w) (hpos : 0 < h) : shapeG img = (h, w) := by
  unfold shapeG
  rw [hr.1, imgWidth_of_rect hr hpos]

theorem rect_assembleRGBA (rgb : Img3) (m : ImgG) (h w : Nat)
    (hr : rect rgb h w) : rect (assembleRGBA rgb m) h w := by
  constructor
  · simp [assembleRGBA, hr.1]
  · intro row hrow
    unfold assembleRGBA at hrow
    obtain ⟨r, hrn, hrfl⟩ := List.mem_map.mp hrow
    have hrlt : r < h := hr.1 ▸ List.mem_range.mp hrn
    have hw : imgWidth rgb = w := imgWidth_of_rect hr (Nat.pos_of_ne_zero (by omega))
    rw [← hrfl]
    simp [hw]

theorem getPx4_assembleRGBA (rgb : Img3) (m : ImgG) (r c : Nat)
    (hr : r < rgb.length) (hc : c < imgWidth rgb) :
    getPx4 (assembleRGBA rgb m) r c =
      ⟨(getPx3 rgb r c).c0, (getPx3 rgb r c).c1, (getPx3 rgb r c).c2,
        getG m r c⟩ := by
  unfold getPx4 assembleRGBA
  rw [nthD_range_map _ _ r _ hr, nthD_range_map _ _ c _ hc]

/-! ## Claims about the per-image merge -/

/-- C1. For a color/mask pair of matching spatial dimensions, the merge of
`combine_rgb_mask` produces a 4-channel image of the same dimensions whose
channels 0-2 equal the loaded color image's channels pixel-for-pixel and whose
channel 3 equals the mask's pixel values pixel-for-pixel. -/
theorem C1_composite_channels (h w : Nat) (rgb : Img3) (mask : ImgG)
    (hr : rect rgb h w) (hm : rect mask h w) :
    rect (combinePair rgb mask) h w ∧
    ∀ r, r < h → ∀ c, c < w →
      getPx4 (combinePair rgb mask) r c =
        ⟨(getPx3 rgb r c).c0, (getPx3 rgb r c).c1, (getPx3 rgb r c).c2,
          getG mask r c⟩ := by
  have heq : shape3 rgb = shapeG mask := by
    by_cases hpos : 0 < h
    · rw [shape3_of_rect hr hpos, shapeG_of_rect hm hpos]
    · have h0 : h = 0 := by omega
      subst h0
      cases rgb with
      | cons row rest => exact absurd hr.1 (by simp)
      | nil =>
        cases mask with
        | cons row rest => exact absurd hm.1 (by simp)
        | nil => rfl
  unfold combinePair
  rw [if_pos heq]
  refine ⟨rect_assembleRGBA _ _ _ _ hr, fun r hrlt c hclt => ?_⟩
  have hpos : 0 < h := by omega
  exact getPx4_assembleRGBA rgb mask r c (hr.1 ▸ hrlt)
    ((imgWidth_of_rect hr hpos) ▸ hclt)

theorem C1_composite_channels_witness :
    getPx4 (combinePair [[⟨1, 2, 3⟩]] [[7]]) 0 0 = ⟨1, 2, 3, 7⟩ := by
  have h := (C1_composite_channels 1 1 [[⟨1, 2, 3⟩]] [[7]]
    (by decide) (by decide)).2 0 (by decide) 0 (by decide)
  rw [h]; rfl

/-- C3. When the mask's spatial dimensions differ from the color image's, the
merge still produces the composite, at the color image's height and width,
from the mask resized to those dimensions — the frame is not dropped. -/
theorem C3_resize_on_mismatch (h w : Nat) (rgb : Img3) (mask : ImgG)
    (hr : rect rgb h w) (hpos : 0 < h)
    (hne : shapeG mask ≠ (h, w)) :
    combinePair rgb mask = assembleRGBA rgb (resizeGray mask h w) ∧
    rect (combinePair rgb mask) h w := by
  have hsh : shape3 rgb = (h, w) := shape3_of_rect hr hpos
  have hcond : ¬ shape3 rgb = shapeG mask := by
    rw [hsh]; exact fun e => hne e.symm
  constructor
  · unfold combinePair
    rw [if_neg hcond, hr.1, imgWidth_of_rect hr hpos]
  · unfold combinePair
    rw [if_neg hcond]
    exact rect_assembleRGBA _ _ _ _ hr

theorem C3_resize_on_mismatch_witness :
    combinePair [[⟨1, 2, 3⟩]] [[5, 6], [7, 8]] =
      assembleRGBA [[⟨1, 2, 3⟩]] (resizeGray [[5, 6], [7, 8]] 1 1) ∧
    rect (combinePair [[⟨1, 2, 3⟩]] [[5, 6], [7, 8]]) 1 1 :=
  C3_resize_on_mismatch 1 1 [[⟨1, 2, 3⟩]] [[5, 6], [7, 8]]
    (by decide) (by decide) (by decide)

/-! ## The distributor: helper lemmas -/

theorem copyFold_copied (sn dn : Nat → String) (src : Folder) :
    ∀ (l : List Nat) (fs : Folder) (acc : List Nat) (c : Nat),
      (l.foldl (copyStep sn dn src) ⟨fs, acc, c⟩).copied =
        acc ++ l.filter (fun i => (lookupFile src (sn i)).isSome) := by
  intro l
  induction l with
  | nil => intro fs acc c; simp
  | cons i l ih =>
    intro fs acc c
    cases hl : lookupFile src (sn i) with
    | some f =>
      rw [List.foldl_cons, show copyStep sn dn src ⟨fs, acc, c⟩ i =
          ⟨writeFile fs (dn i) f, acc ++ [i], c + 1⟩ from by
            unfold copyStep; rw [hl]]
      rw [ih]
      simp [List.filter_cons, hl]
    | none =>
      rw [List.foldl_cons, show copyStep sn dn src ⟨fs, acc, c⟩ i =
          ⟨fs, acc, c⟩ from by unfold copyStep; rw [hl]]
      rw [ih]
      simp [List.filter_cons, hl]

theorem mem_copyRange (sn dn : Nat → String) (src : Folder)
    (dest0 : Option Folder) (s e i : Nat) :
    i ∈ (copyRange sn dn src dest0 (s, e)).copied ↔
      s ≤ i ∧ i < e ∧ (lookupFile src (sn i)).isSome = true := by
  unfold copyRange
  rw [copyFold_copied]
  simp only [List.nil_append, List.mem_filter, List.mem_range'_1]
  constructor
  · rintro ⟨⟨h1, h2⟩, h3⟩
    exact ⟨h1, by omega, h3⟩
  · rintro ⟨h1, h2, h3⟩
    exact ⟨⟨h1, by omega⟩, h3⟩

/-! ## Claim about the distribution functions -/

/-- C6. Each of the three distribution functions copies a file for index `i`
exactly when `i` lies in the half-open range and the expected source filename
for `i` exists; missing files inside the range are skipped without affecting
other indices, and nothing outside the range is copied. -/
theorem C6_copy_range_membership (src : Folder) (dest0 : Option Folder)
    (s e i : Nat) :
    (i ∈ (copy_images_to_directory src dest0 (s, e)).copied ↔
      s ≤ i ∧ i < e ∧ (lookupFile src (imgName i)).isSome = true) ∧
    (i ∈ (copy_and_rename_mask_images src dest0 (s, e)).copied ↔
      s ≤ i ∧ i < e ∧ (lookupFile src (maskFileName i)).isSome = true) ∧
    (i ∈ (copy_mask_images_to_directory src dest0 (s, e)).copied ↔
      s ≤ i ∧ i < e ∧ (lookupFile src (maskFileName i)).isSome = true) :=
  ⟨mem_copyRange imgName imgName src dest0 s e i,
   mem_copyRange maskFileName imgName src dest0 s e i,
   mem_copyRange maskFileName maskFileName src dest0 s e i⟩

/-! ## Sorting and folder lemmas -/

theorem mem_insertName (a x : String) :
    ∀ l : List String, a ∈ insertName x l ↔ a = x ∨ a ∈ l := by
  intro l
  induction l with
  | nil => simp [insertName]
  | cons y ys ih =>
    unfold insertName
    by_cases hlt : lexLt y.data x.data
    · simp only [hlt, if_pos, List.mem_cons, ih]
      tauto
    · simp only [hlt, if_neg, Bool.false_eq_true, not_false_iff, List.mem_cons]

theorem mem_sortNames (a : String) :
    ∀ l : List String, a ∈ sortNames l ↔ a ∈ l := by
  intro l
  induction l with
  | nil => simp [sortNames]
  | cons x xs ih =>
    unfold sortNames
    rw [mem_insertName, ih, List.mem_cons]

theorem insertName_ne_nil (x : String) (l : List String) :
    insertName x l ≠ [] := by
  cases l with
  | nil => simp [insertName]
  | cons y ys =>
    unfold insertName
    by_cases hlt : lexLt y.data x.data <;> simp [hlt]

theorem sortNames_eq_nil (l : List String) : sortNames l = [] ↔ l = [] := by
  cases l with
  | nil => simp [sortNames]
  | cons x xs =>
    unfold sortNames
    simp [insertName_ne_nil]

theorem combineFold_count (rgbF maskF : Folder) :
    ∀ (l : List String) (fs : Folder) (c : Nat),
      (l.foldl (combineStep rgbF maskF) (fs, c)).2 =
        c + (l.filter
          (fun n => (lookupFile maskF (maskNameOf n)).isSome)).length := by
  intro l
  induction l with
  | nil => intro fs c; simp
  | cons name l ih =>
    intro fs c
    cases hl : lookupFile maskF (maskNameOf name) with
    | none =>
      rw [List.foldl_cons, show combineStep rgbF maskF (fs, c) name = (fs, c)
        from by unfold combineStep; rw [hl]]
      rw [ih]
      simp [List.filter_cons, hl]
    | some mf =>
      rw [List.foldl_cons, show combineStep rgbF maskF (fs, c) name =
          (writeFile fs (outNameOf name)
            (File.rgba (combinePair
              (loadColor ((lookupFile rgbF name).getD (File.color [])))
              (loadGray mf))), c + 1)
        from by unfold combineStep; rw [hl]]
      rw [ih]
      simp [List.filter_cons, hl]
      omega

theorem combine_rgb_mask_some_some (rgbF maskF : Folder)
    (outDir : Option Folder) :
    combine_rgb_mask (some rgbF) (some maskF) outDir =
      if sortNames ((listing rgbF).filter isPng) = [] then
        (⟨false, some (outDir.getD []), 0⟩ : CombineResult)
      else
        ⟨decide (0 < ((sortNames ((listing rgbF).filter isPng)).foldl
            (combineStep rgbF maskF) (outDir.getD [], 0)).2),
          some ((sortNames ((listing rgbF).filter isPng)).foldl
            (combineStep rgbF maskF) (outDir.getD [], 0)).1,
          ((sortNames ((listing rgbF).filter isPng)).foldl
            (combineStep rgbF maskF) (outDir.getD [], 0)).2⟩ := rfl

theorem combine_success_eq (rgbF maskF : Folder) (outDir : Option Folder) :
    (combine_rgb_mask (some rgbF) (some maskF) outDir).success =
      decide (0 < ((sortNames ((listing rgbF).filter isPng)).filter
        (fun n => (lookupFile maskF (maskNameOf n)).isSome)).length) := by
  rw [combine_rgb_mask_some_some]
  split
  next hL => rw [hL]; simp
  next hL =>
    rw [show ((sortNames ((listing rgbF).filter isPng)).foldl
        (combineStep rgbF maskF) (outDir.getD [], 0)).2 =
        0 + ((sortNames ((listing rgbF).filter isPng)).filter
          (fun n => (lookupFile maskF (maskNameOf n)).isSome)).length
      from combineFold_count rgbF maskF _ _ 0]
    simp

theorem combine_success_false_iff (rgbF maskF : Folder) (outDir : Option Folder) :
    (combine_rgb_mask (some rgbF) (some maskF) outDir).success = false ↔
      ∀ n ∈ listing rgbF, isPng n = true →
        lookupFile maskF (maskNameOf n) = none := by
  rw [combine_success_eq, decide_eq_false_iff_not, Nat.not_lt, Nat.le_zero,
    List.length_eq_zero, List.filter_eq_nil_iff]
  constructor
  · intro hall n hn hp
    have hmem : n ∈ sortNames ((listing rgbF).filter isPng) :=
      (mem_sortNames n _).mpr (List.mem_filter.mpr ⟨hn, hp⟩)
    have := hall n hmem
    cases hlk : lookupFile maskF (maskNameOf n) with
    | none => rfl
    | some f => rw [hlk] at this; simp at this
  · intro hall n hn
    obtain ⟨hmem, hp⟩ := List.mem_filter.mp ((mem_sortNames n _).mp hn)
    rw [hall n hmem hp]
    simp

/-! ## Claim C7: when the compositor reports failure -/

/-- C7 counterexample: a color folder with one PNG and an existing but empty
mask folder.  Both input folders exist and the color folder has a PNG, yet
`combine_rgb_mask` returns failure (no pair was processed), so failure is not
limited to the three conditions the claim lists. -/
theorem C7_counterexample :
    (combine_rgb_mask (some [("000000.png", File.color [[⟨1, 2, 3⟩]])])
        (some []) none).success = false ∧
    (listing [("000000.png", File.color [[⟨1, 2, 3⟩]])]).filter isPng =
      ["000000.png"] := by
  decide

/-- C7 as amended: `combine_rgb_mask` reports failure exactly when the color
folder is missing, the mask folder is missing, or no PNG file of the color
folder has a corresponding mask file (which subsumes the case of a color
folder with no PNG files); it reports success otherwise. -/
theorem C7_failure_conditions :
    (∀ (rgbF maskF : Folder) (outDir : Option Folder),
      ((combine_rgb_mask (some rgbF) (some maskF) outDir).success = false ↔
        ∀ n ∈ listing rgbF, isPng n = true →
          lookupFile maskF (maskNameOf n) = none)) ∧
    (∀ maskDir outDir : Option Folder,
      (combine_rgb_mask none maskDir outDir).success = false) ∧
    (∀ rgbDir outDir : Option Folder,
      (combine_rgb_mask rgbDir none outDir).success = false) := by
  refine ⟨combine_success_false_iff, fun maskDir outDir => rfl,
    fun rgbDir outDir => ?_⟩
  cases rgbDir with
  | none => rfl
  | some rgbF => rfl

/-! ## Claim C10: the failure path creates the output folder -/

/-- C10. When both input folders exist, the output folder is created before
the eligible-image check, so a call failing for lack of PNG files in the color
folder still leaves the output folder existing. -/
theorem C10_output_folder_created (rgbF maskF : Folder) (outDir : Option Folder)
    (hnone : (listing rgbF).filter isPng = []) :
    (combine_rgb_mask (some rgbF) (some maskF) outDir).success = false ∧
    (combine_rgb_mask (some rgbF) (some maskF) outDir).outFolder =
      some (outDir.getD []) := by
  rw [combine_rgb_mask_some_some,
    show sortNames ((listing rgbF).filter isPng) = [] from by rw [hnone]; rfl]
  simp

theorem C10_output_folder_created_witness :
    (combine_rgb_mask (some [("notes.txt", File.gray [[0]])]) (some [])
        none).success = false ∧
    (combine_rgb_mask (some [("notes.txt", File.gray [[0]])]) (some [])
        none).outFolder = some [] :=
  C10_output_folder_created [("notes.txt", File.gray [[0]])] [] none (by decide)

/-! ## Claim C8: when the suppressor reports failure -/

theorem lookupFile_writeFile (m : String) (f : File) (n : String) :
    ∀ fs : Folder, lookupFile (writeFile fs m f) n =
      if m.data = n.data then some f else lookupFile fs n := by
  intro fs
  induction fs with
  | nil =>
    simp only [writeFile, lookupFile]
    by_cases h : m.data = n.data <;> simp [h]
  | cons e fs ih =>
    obtain ⟨k, g⟩ := e
    by_cases hkm : k.data = m.data
    · by_cases hkn : k.data = n.data
      · have hmn : m.data = n.data := by rw [← hkm, hkn]
        simp [writeFile, lookupFile, hkm, hkn, hmn]
      · have hmn : ¬ m.data = n.data := by rw [← hkm]; exact hkn
        simp [writeFile, lookupFile, hkm, hkn, hmn]
    · by_cases hkn : k.data = n.data
      · have hmn : ¬ m.data = n.data := by
          intro h; rw [← h] at hkn; exact hkm hkn
        have hnm : ¬ n.data = m.data := fun h => hmn h.symm
        simp [writeFile, lookupFile, hkm, hkn, hmn, hnm]
      · simp [writeFile, lookupFile, hkm, hkn, ih]

theorem lookupFile_congr (m n : String) (h : m.data = n.data) :
    ∀ fs : Folder, lookupFile fs m = lookupFile fs n := by
  intro fs
  induction fs with
  | nil => rfl
  | cons e fs ih =>
    obtain ⟨k, g⟩ := e
    simp only [lookupFile, h, ih]

theorem isRgbaAt_writeFile_rgba (st : Folder) (m : String) (img : Img4)
    (hm : isRgbaAt st m = true) (n : String) :
    isRgbaAt (writeFile st m (File.rgba img)) n = isRgbaAt st n := by
  unfold isRgbaAt
  rw [lookupFile_writeFile]
  by_cases h : m.data = n.data
  · rw [if_pos h, ← lookupFile_congr m n h st]
    unfold isRgbaAt at hm
    cases hlk : lookupFile st m with
    | none => rw [hlk] at hm; simp at hm
    | some f =>
      cases f with
      | rgba i => rfl
      | color i => rw [hlk] at hm; simp at hm
      | gray i => rw [hlk] at hm; simp at hm
  · rw [if_neg h]

theorem postFold (fs : Folder) :
    ∀ (l : List String) (st : Folder) (c : Nat),
      (∀ n, isRgbaAt st n = isRgbaAt fs n) →
      ((l.foldl postStep (st, c)).2 =
          c + (l.filter (fun n => isRgbaAt fs n)).length ∧
        ∀ n, isRgbaAt (l.foldl postStep (st, c)).1 n = isRgbaAt fs n) := by
  intro l
  induction l with
  | nil => intro st c hinv; exact ⟨by simp, hinv⟩
  | cons name l ih =>
    intro st c hinv
    cases hlk : lookupFile st name with
    | none =>
      have hstep : postStep (st, c) name = (st, c) := by
        unfold postStep; rw [hlk]
      have hrg : isRgbaAt fs name = false := by
        rw [← hinv]; unfold isRgbaAt; rw [hlk]
      rw [List.foldl_cons, hstep]
      obtain ⟨h1, h2⟩ := ih st c hinv
      refine ⟨?_, h2⟩
      rw [h1]
      simp [List.filter_cons, hrg]
    | some f =>
      cases f with
      | rgba img =>
        have hstep : postStep (st, c) name =
            (writeFile st name (File.rgba (suppressImage img)), c + 1) := by
          unfold postStep; rw [hlk]
        have hrgst : isRgbaAt st name = true := by
          unfold isRgbaAt; rw [hlk]
        have hrg : isRgbaAt fs name = true := by rw [← hinv]; exact hrgst
        have hinv' : ∀ n,
            isRgbaAt (writeFile st name (File.rgba (suppressImage img))) n =
              isRgbaAt fs n := fun n => by
          rw [isRgbaAt_writeFile_rgba st name _ hrgst n, hinv n]
        rw [List.foldl_cons, hstep]
        obtain ⟨h1, h2⟩ := ih _ (c + 1) hinv'
        refine ⟨?_, h2⟩
        rw [h1]
        simp [List.filter_cons, hrg]
        omega
      | color img =>
        have hstep : postStep (st, c) name = (st, c) := by
          unfold postStep; rw [hlk]
        have hrg : isRgbaAt fs name = false := by
          rw [← hinv]; unfold isRgbaAt; rw [hlk]
        rw [List.foldl_cons, hstep]
        obtain ⟨h1, h2⟩ := ih st c hinv
        refine ⟨?_, h2⟩
        rw [h1]
        simp [List.filter_cons, hrg]
      | gray img =>
        have hstep : postStep (st, c) name = (st, c) := by
          unfold postStep; rw [hlk]
        have hrg : isRgbaAt fs name = false := by
          rw [← hinv]; unfold isRgbaAt; rw [hlk]
        rw [List.foldl_cons, hstep]
        obtain ⟨h1, h2⟩ := ih st c hinv
        refine ⟨?_, h2⟩
        rw [h1]
        simp [List.filter_cons, hrg]

theorem postprocess_some (fs : Folder) :
    postprocess_segmented_images (some fs) =
      if sortNames ((listing fs).filter isPng) = [] then ⟨false, some fs, 0⟩
      else
        ⟨decide (0 <
            ((sortNames ((listing fs).filter isPng)).foldl postStep (fs, 0)).2),
          some ((sortNames ((listing fs).filter isPng)).foldl postStep (fs, 0)).1,
          ((sortNames ((listing fs).filter isPng)).foldl postStep (fs, 0)).2⟩ :=
  rfl

theorem post_success_false_iff (fs : Folder) :
    (postprocess_segmented_images (some fs)).success = false ↔
      ∀ n ∈ listing fs, isPng n = true → isRgbaAt fs n = false := by
  rw [postprocess_some]
  split
  next hL =>
    have hall := List.filter_eq_nil_iff.mp ((sortNames_eq_nil _).mp hL)
    constructor
    · intro _ n hn hp
      exact absurd hp (hall n hn)
    · intro _
      rfl
  next hL =>
    rw [show (⟨decide (0 <
          ((sortNames ((listing fs).filter isPng)).foldl postStep (fs, 0)).2),
        some ((sortNames ((listing fs).filter isPng)).foldl postStep (fs, 0)).1,
        ((sortNames ((listing fs).filter isPng)).foldl postStep
          (fs, 0)).2⟩ : PostResult).success =
        decide (0 <
          ((sortNames ((listing fs).filter isPng)).foldl postStep (fs, 0)).2)
      from rfl]
    rw [(postFold fs (sortNames ((listing fs).filter isPng)) fs 0
      (fun n => rfl)).1]
    rw [decide_eq_false_iff_not, Nat.not_lt, Nat.le_zero, Nat.zero_add,
      List.length_eq_zero, List.filter_eq_nil_iff]
    constructor
    · intro hall n hn hp
      have hmem : n ∈ sortNames ((listing fs).filter isPng) :=
        (mem_sortNames n _).mpr (List.mem_filter.mpr ⟨hn, hp⟩)
      have := hall n hmem
      simpa using this
    · intro hall n hn
      obtain ⟨hmem, hp⟩ := List.mem_filter.mp ((mem_sortNames n _).mp hn)
      simp [hall n hmem hp]

/-- C8 counterexample: an existing folder with one PNG file that is not a
4-channel image.  The folder exists and contains a PNG, yet
`postprocess_segmented_images` returns failure (no file was processed), so
failure is not limited to the two conditions the claim lists. -/
theorem C8_counterexample :
    (postprocess_segmented_images
        (some [("a.png", File.color [[⟨1, 2, 3⟩]])])).success = false ∧
    (listing [("a.png", File.color [[⟨1, 2, 3⟩]])]).filter isPng =
      ["a.png"] := by
  decide

/-- C8 as amended: `postprocess_segmented_images` reports failure exactly when
the folder does not exist, or no PNG file in it is a 4-channel image (which
subsumes the case of a folder with no PNG files); it reports success
otherwise. -/
theorem C8_failure_conditions :
    (∀ fs : Folder,
      ((postprocess_segmented_images (some fs)).success = false ↔
        ∀ n ∈ listing fs, isPng n = true → isRgbaAt fs n = false)) ∧
    (postprocess_segmented_images none).success = false :=
  ⟨post_success_false_iff, rfl⟩

/-! ## Claim C9: the orchestrator's abort condition -/

theorem process_object_directory_eq (st : ObjState) :
    process_object_directory st =
      if st.base_exists = false then
        ⟨false, none, none, none, none, none, none⟩
      else if (combine_rgb_mask st.rgbF st.maskF st.rgb_mask0).success = false
      then
        ⟨false, some (combine_rgb_mask st.rgbF st.maskF st.rgb_mask0),
          none, none, none, none, none⟩
      else
        ⟨true, some (combine_rgb_mask st.rgbF st.maskF st.rgb_mask0),
          some (0, 30, copy_and_rename_mask_images (st.maskF.getD [])
            st.seg_masks0 (0, 30)),
          some (0, 20, copy_and_rename_mask_images (st.maskF.getD [])
            st.surf_masks0 (0, 20)),
          some (0, 20, copy_images_to_directory
            ((combine_rgb_mask st.rgbF st.maskF st.rgb_mask0).outFolder.getD [])
            st.surf_images0 (0, 20)),
          some (0, 30, copy_images_to_directory
            ((combine_rgb_mask st.rgbF st.maskF st.rgb_mask0).outFolder.getD [])
            st.seg_images0 (0, 30)),
          some (postprocess_segmented_images (some (copy_images_to_directory
            ((combine_rgb_mask st.rgbF st.maskF st.rgb_mask0).outFolder.getD [])
            st.seg_images0 (0, 30)).destFolder))⟩ :=
  rfl

/-- C9. Under the filesystem constraint that a missing base directory means a
missing `rgb` subfolder, the orchestrator returns failure exactly when the
compositor reports failure; on failure none of steps 2-6 ran, and on success
all of them ran, with ranges `[0,30)` for the segmented masks and images and
`[0,20)` for the surface masks and images, whatever files are present. -/
theorem C9_abort_iff_compositor_failure (st : ObjState)
    (hwf : st.base_exists = false → st.rgbF = none) :
    ((process_object_directory st).success = false ↔
      (combine_rgb_mask st.rgbF st.maskF st.rgb_mask0).success = false) ∧
    ((process_object_directory st).success = false →
      (process_object_directory st).segMasks = none ∧
      (process_object_directory st).surfMasks = none ∧
      (process_object_directory st).surfImages = none ∧
      (process_object_directory st).segImages = none ∧
      (process_object_directory st).postRes = none) ∧
    ((process_object_directory st).success = true →
      (process_object_directory st).combineRes =
        some (combine_rgb_mask st.rgbF st.maskF st.rgb_mask0) ∧
      (process_object_directory st).segMasks =
        some (0, 30, copy_and_rename_mask_images (st.maskF.getD [])
          st.seg_masks0 (0, 30)) ∧
      (process_object_directory st).surfMasks =
        some (0, 20, copy_and_rename_mask_images (st.maskF.getD [])
          st.surf_masks0 (0, 20)) ∧
      (process_object_directory st).surfImages =
        some (0, 20, copy_images_to_directory
          ((combine_rgb_mask st.rgbF st.maskF st.rgb_mask0).outFolder.getD [])
          st.surf_images0 (0, 20)) ∧
      (process_object_directory st).segImages =
        some (0, 30, copy_images_to_directory
          ((combine_rgb_mask st.rgbF st.maskF st.rgb_mask0).outFolder.getD [])
          st.seg_images0 (0, 30)) ∧
      (process_object_directory st).postRes =
        some (postprocess_segmented_images (some (copy_images_to_directory
          ((combine_rgb_mask st.rgbF st.maskF st.rgb_mask0).outFolder.getD [])
          st.seg_images0 (0, 30)).destFolder))) := by
  rw [process_object_directory_eq]
  by_cases hbase : st.base_exists = false
  · have hrgb := hwf hbase
    have hc : (combine_rgb_mask st.rgbF st.maskF st.rgb_mask0).success =
        false := by
      rw [hrgb]
      rfl
    rw [if_pos hbase]
    refine ⟨⟨fun _ => hc, fun _ => rfl⟩, fun _ => ⟨rfl, rfl, rfl, rfl, rfl⟩,
      fun h => ?_⟩
    exact absurd h (by simp)
  · rw [if_neg hbase]
    by_cases hcs : (combine_rgb_mask st.rgbF st.maskF st.rgb_mask0).success =
      false
    · rw [if_pos hcs]
      exact ⟨⟨fun _ => hcs, fun _ => rfl⟩, fun _ => ⟨rfl, rfl, rfl, rfl, rfl⟩,
        fun h => absurd h (by simp)⟩
    · rw [if_neg hcs]
      exact ⟨⟨fun h => absurd h (by simp), fun h => absurd h hcs⟩,
        fun h => absurd h (by simp),
        fun _ => ⟨rfl, rfl, rfl, rfl, rfl, rfl⟩⟩

/-- Concrete starting state for the C9 witness: the base directory exists, the
`rgb` and `mask` folders exist but are empty, so the compositor fails. -/
def sampleState : ObjState :=
  ⟨true, some [], some [], none, none, none, none, none⟩

theorem C9_abort_iff_compositor_failure_witness :
    (process_object_directory sampleState).success = false ∧
    (process_object_directory sampleState).postRes = none := by
  have h := C9_abort_iff_compositor_failure sampleState (by decide)
  have hsucc : (process_object_directory sampleState).success = false :=
    h.1.mpr (by decide)
  exact ⟨hsucc, (h.2.1 hsucc).2.2.2.2⟩
